import Mathlib

/-!
# Hanging chain example (`examples/chain/chain.cxx`)

A shallow embedding of the PSOPT client program `chain.cxx`: the user
callbacks (`endpoint_cost`, `integrand_cost`, `dae`, `integrand`, `events`,
`linkages`) and the body of `main`.

Conventions of the embedding.

* An `adouble*` argument is a pointer into an array of differentiable
  scalars. It is embedded as an index function `Nat → α`; a store
  `p[i] = v` is `Function.update p i v`. A `void` callback returns the
  arrays it may write.
* The scalar type `α` stands for the value carried by an `adouble`. The
  callbacks are polymorphic in it and use only `1`, `+`, `*` and `^ 2`.
  Properties that hold for exact arithmetic are stated over an ordered field
  or the real numbers; the sign and zero properties of the Lagrange cost are
  stated over `Dbl`, a model of double arithmetic with rounding, overflow to
  infinity and NaN.
* `sqrt` on `adouble` and the library routine `integrate` are not defined in
  `chain.cxx`; the callbacks that call them take them as arguments.
* `pow(dxdt, 2.0)` is embedded as `dxdt ^ 2`.
* `main` is a straight-line sequence of field assignments and library calls
  followed by one branch on `solution.error_flag`. Each statement is a
  constructor of `Stmt`; `setup` lists the statements before the call of
  `psopt` in source order, `exec` gives their effect on the `problem` and
  `algorithm` records, and `main` returns the sequence of actions performed
  together with the exit status. The solver `psopt` is an argument of `main`.
* Matrices (`MatrixXd`) are values of an arbitrary type `M`; the matrix helpers
  `ones`, `linspace` and the scalar product, which `chain.cxx` calls and does
  not define, are arguments (`MatrixLib`).
* The numeric literals that `main` stores in bounds are rationals; each is a
  value of the `double` format.
-/

set_option linter.unusedVariables false

namespace Chain

section Callbacks

variable {α : Type} {W : Type}

/-- Signature shared by `integrand` and `integrand_cost`:
`(states, controls, parameters, time, xad, iphase, workspace) ↦ adouble`. -/
abbrev IntegrandFn (α W : Type) : Type :=
  (Nat → α) → (Nat → α) → (Nat → α) → α → (Nat → α) → Int → W → α

/-- End point (Mayer) cost, `chain.cxx` lines 26-31: `return 0.0;`. -/
def endpoint_cost [Zero α] (initial_states final_states parameters : Nat → α)
    (t0 tf : α) (xad : Nat → α) (iphase : Int) (workspace : W) : α :=
  0

/-- Integrand (Lagrange) cost, `chain.cxx` lines 37-47. -/
def integrand_cost [One α] [Add α] [Mul α] [Pow α ℕ] (sqrt : α → α)
    (states controls parameters : Nat → α) (time : α) (xad : Nat → α) (iphase : Int) (workspace : W) : α :=
  let x := states 0
  let dxdt := controls 0
  let L := x * sqrt (1 + dxdt ^ 2)
  L

/-- The DAE callback, `chain.cxx` lines 53-65. The result is the pair of arrays
`(derivatives, path)` after the call. -/
def dae (derivatives path states controls parameters : Nat → α)
    (time : α) (xad : Nat → α) (iphase : Int) (workspace : W) : (Nat → α) × (Nat → α) :=
  let _x := states 0
  let dxdt := controls 0
  (Function.update derivatives 0 dxdt, path)

/-- Integrand of the integral constraint, `chain.cxx` lines 72-82. -/
def integrand [One α] [Add α] [Pow α ℕ] (sqrt : α → α)
    (states controls parameters : Nat → α) (time : α) (xad : Nat → α) (iphase : Int) (workspace : W) : α :=
  let dxdt := controls 0
  let G := sqrt (1 + dxdt ^ 2)
  G

/-- The events callback, `chain.cxx` lines 89-104. The result is the array `e`
after the call. `integrate` is the library quadrature routine, called as
`integrate(integrand, xad, iphase, workspace)`. -/
def events [One α] [Add α] [Pow α ℕ] (sqrt : α → α)
    (integrate : IntegrandFn α W → (Nat → α) → Int → W → α)
    (e initial_states final_states parameters : Nat → α)
    (t0 tf : α) (xad : Nat → α) (iphase : Int) (workspace : W) : Nat → α :=
  let x0 := initial_states 0
  let xf := final_states 0
  let Q := integrate (integrand sqrt) xad iphase workspace
  Function.update (Function.update (Function.update e 0 x0) 1 xf) 2 Q

/-- The phase linkages callback, `chain.cxx` lines 112-115: the body is empty.
The result is the array `linkages` after the call. -/
def linkages (linkages xad : Nat → α) (workspace : W) : Nat → α :=
  linkages

end Callbacks

/-! ## Data model used by `main` -/

/-- The matrix helpers of the library that `main` calls and `chain.cxx` does
not define, over the type `M` of dense matrices (`MatrixXd`): `ones(r, c)`,
`linspace(X1, X2, n)` and the product `c * m` of a scalar and a matrix. Nothing
is assumed about what they return. -/
structure MatrixLib (M : Type) where
  ones : Nat → Nat → M
  linspace : ℚ → ℚ → Nat → M
  smul : ℚ → M → M

/-- One side (`lower` or `upper`) of a phase's bounds. A vector entry or a time
bound is `none` until a value has been assigned to it. -/
structure Bounds where
  states : List (Option ℚ)
  controls : List (Option ℚ)
  events : List (Option ℚ)
  path : List (Option ℚ)
  StartTime : Option ℚ
  EndTime : Option ℚ
deriving DecidableEq

/-- The pair `bounds.lower`, `bounds.upper` of a phase. -/
structure BoundsPair where
  lower : Bounds
  upper : Bounds
deriving DecidableEq

/-- The initial guess of a phase; a trajectory is `none` until assigned. -/
structure Guess (M : Type) where
  controls : Option M
  states : Option M
  time : Option M
deriving DecidableEq

/-- The fields of `problem.phases(i)` that `main` touches. -/
structure Phase (M : Type) where
  nstates : Nat
  ncontrols : Nat
  nevents : Nat
  npath : Nat
  nodes : List Nat
  bounds : BoundsPair
  guess : Guess M
deriving DecidableEq

/-- The five callback slots of the problem record. -/
inductive Callback where
  | integrand_cost
  | endpoint_cost
  | dae
  | events
  | linkages
deriving DecidableEq

/-- The problem record `Prob`. `phases` is indexed from 1, as `phases(1)`.
The two flags record that the level-1 and the level-2 setup have run. -/
structure Prob (M : Type) where
  name : String
  outfilename : String
  nphases : Nat
  nlinkages : Nat
  phases : List (Phase M)
  callbacks : List Callback
  level1_done : Bool
  level2_done : Bool
deriving DecidableEq

/-- The algorithm record `Alg`, with the options that `main` sets. -/
structure Alg where
  nlp_method : String
  scaling : String
  derivatives : String
  nlp_iter_max : Nat
  nlp_tolerance : ℚ
deriving DecidableEq

/-- The solution record `Sol`: the error flag and the three accessors that
`main` calls. -/
structure Sol (M : Type) where
  error_flag : Bool
  get_states_in_phase : Nat → M
  get_controls_in_phase : Nat → M
  get_time_in_phase : Nat → M

/-- Which of `bounds.lower` and `bounds.upper` an assignment writes. -/
inductive Side where
  | lower
  | upper
deriving DecidableEq

/-- The actions of `main`, one constructor per kind of statement: assignments
to fields of `problem` and `algorithm`, and calls of library routines. The call
of `psopt` records the two records it is given. -/
inductive Stmt (M : Type) where
  | set_name (s : String)
  | set_outfilename (s : String)
  | set_nphases (n : Nat)
  | set_nlinkages (n : Nat)
  | psopt_level1_setup
  | set_nstates (iphase n : Nat)
  | set_ncontrols (iphase n : Nat)
  | set_nevents (iphase n : Nat)
  | set_npath (iphase n : Nat)
  | set_nodes (iphase : Nat) (nodes : List Nat)
  | psopt_level2_setup
  | set_bounds_states (iphase : Nat) (side : Side) (i : Nat) (v : ℚ)
  | set_bounds_controls (iphase : Nat) (side : Side) (i : Nat) (v : ℚ)
  | set_bounds_events (iphase : Nat) (side : Side) (i : Nat) (v : ℚ)
  | set_bounds_path (iphase : Nat) (side : Side) (i : Nat) (v : ℚ)
  | set_bounds_StartTime (iphase : Nat) (side : Side) (v : ℚ)
  | set_bounds_EndTime (iphase : Nat) (side : Side) (v : ℚ)
  | register (cb : Callback)
  | set_guess_controls (iphase : Nat) (m : M)
  | set_guess_states (iphase : Nat) (m : M)
  | set_guess_time (iphase : Nat) (m : M)
  | set_nlp_method (s : String)
  | set_scaling (s : String)
  | set_derivatives (s : String)
  | set_nlp_iter_max (n : Nat)
  | set_nlp_tolerance (v : ℚ)
  | psopt (problem : Prob M) (algorithm : Alg)
  | exit (status : Int)
  | get_states_in_phase (iphase : Nat)
  | get_controls_in_phase (iphase : Nat)
  | get_time_in_phase (iphase : Nat)
  | Save (m : M) (filename : String)
  | plot (x y : M) (title xlabel ylabel legend : String)
      (terminal output : Option String)
deriving DecidableEq

/-! ## Executing the statements of `main` on the problem record -/

/-- The configuration errors that the setup statements can raise. -/
inductive ConfigurationError where
  | setup_order
  | no_such_phase
  | index_out_of_range
deriving DecidableEq

/-- The two records that `main` configures. -/
structure Config (M : Type) where
  problem : Prob M
  algorithm : Alg
deriving DecidableEq

/-- The result of running `main`: the actions performed, in order, and the
exit status of the process. -/
structure Run (M : Type) where
  trace : List (Stmt M)
  status : Int
deriving DecidableEq

/-- A phase as the level-1 setup leaves it: no dimension declared, no storage. -/
def Phase.empty {M : Type} : Phase M :=
  { nstates := 0, ncontrols := 0, nevents := 0, npath := 0, nodes := [],
    bounds := { lower := ⟨[], [], [], [], none, none⟩, upper := ⟨[], [], [], [], none, none⟩ },
    guess := ⟨none, none, none⟩ }

/-- Bound storage for one side, sized by the declared dimensions of the phase,
with no entry assigned yet. -/
def Bounds.alloc {M : Type} (ph : Phase M) : Bounds :=
  { states := List.replicate ph.nstates none,
    controls := List.replicate ph.ncontrols none,
    events := List.replicate ph.nevents none,
    path := List.replicate ph.npath none,
    StartTime := none,
    EndTime := none }

/-- The default-constructed `Prob problem;`. -/
def Prob.init {M : Type} : Prob M :=
  { name := "", outfilename := "", nphases := 0, nlinkages := 0, phases := [],
    callbacks := [], level1_done := false, level2_done := false }

/-- The default-constructed `Alg algorithm;`. -/
def Alg.init : Alg :=
  { nlp_method := "", scaling := "", derivatives := "", nlp_iter_max := 0, nlp_tolerance := 0 }

/-- The configuration at the start of `main`. -/
def Config.init {M : Type} : Config M :=
  ⟨Prob.init, Alg.init⟩

/-- Update `problem.phases(iphase)` (indexed from 1); there is no such phase
when `iphase` is outside `1 .. phases.length`. -/
def Prob.modifyPhase {M : Type} (P : Prob M) (iphase : Nat)
    (f : Phase M → Except ConfigurationError (Phase M)) : Except ConfigurationError (Prob M) :=
  if iphase = 0 then .error .no_such_phase
  else
    match P.phases.get? (iphase - 1) with
    | none => .error .no_such_phase
    | some ph =>
      match f ph with
      | .error err => .error err
      | .ok ph2 => .ok { P with phases := P.phases.set (iphase - 1) ph2 }

/-- Store `x` at index `i` of a bound vector; an index outside the allocated
size is an error. -/
def setEntry (v : List (Option ℚ)) (i : Nat) (x : ℚ) :
    Except ConfigurationError (List (Option ℚ)) :=
  if i < v.length then .ok (v.set i (some x)) else .error .index_out_of_range

/-- Apply an update to `bounds.lower` or to `bounds.upper`. -/
def BoundsPair.modify (b : BoundsPair) (side : Side)
    (f : Bounds → Except ConfigurationError Bounds) : Except ConfigurationError BoundsPair :=
  match side with
  | .lower =>
    match f b.lower with
    | .error err => .error err
    | .ok l => .ok { b with lower := l }
  | .upper =>
    match f b.upper with
    | .error err => .error err
    | .ok u => .ok { b with upper := u }

/-- An assignment to a dimension or to the node sequence of a phase: legal
after the level-1 setup (the phase exists) and before the level-2 setup. -/
def Config.setShape {M : Type} (c : Config M) (iphase : Nat) (f : Phase M → Phase M) :
    Except ConfigurationError (Config M) :=
  if c.problem.level2_done then .error .setup_order
  else
    match c.problem.modifyPhase iphase (fun ph => .ok (f ph)) with
    | .error err => .error err
    | .ok P => .ok { c with problem := P }

/-- An assignment to a bound of a phase: legal only after the level-2 setup. -/
def Config.setBound {M : Type} (c : Config M) (iphase : Nat) (side : Side)
    (f : Bounds → Except ConfigurationError Bounds) : Except ConfigurationError (Config M) :=
  if c.problem.level2_done then
    match c.problem.modifyPhase iphase
        (fun ph =>
          match ph.bounds.modify side f with
          | .error err => .error err
          | .ok b => .ok { ph with bounds := b }) with
    | .error err => .error err
    | .ok P => .ok { c with problem := P }
  else .error .setup_order

/-- An assignment to a guess trajectory of a phase: legal only after the
level-2 setup. -/
def Config.setGuess {M : Type} (c : Config M) (iphase : Nat) (f : Guess M → Guess M) :
    Except ConfigurationError (Config M) :=
  if c.problem.level2_done then
    match c.problem.modifyPhase iphase (fun ph => .ok { ph with guess := f ph.guess }) with
    | .error err => .error err
    | .ok P => .ok { c with problem := P }
  else .error .setup_order

/-- Modelled from the spec: `psopt_level1_setup` and `psopt_level2_setup` are
library routines that are not defined in `chain.cxx`. Following sections 3 and
4.1 of the spec, level 1 fixes the phase and linkage counts and creates the
phases; level 2 fixes the dimensions of every phase and allocates bound and
guess storage sized accordingly; a count set after level 1, a dimension set
before level 1 or after level 2, and a bound or guess set before level 2 raise
a `ConfigurationError`, as does a bound index outside the allocated size.
All other statements are the plain field assignments of `chain.cxx`; the calls
made from `psopt` onwards do not change the two records. -/
def exec {M : Type} (c : Config M) : Stmt M → Except ConfigurationError (Config M)
  | .set_name s => .ok { c with problem := { c.problem with name := s } }
  | .set_outfilename s => .ok { c with problem := { c.problem with outfilename := s } }
  | .set_nphases n =>
    if c.problem.level1_done then .error .setup_order
    else .ok { c with problem := { c.problem with nphases := n } }
  | .set_nlinkages n =>
    if c.problem.level1_done then .error .setup_order
    else .ok { c with problem := { c.problem with nlinkages := n } }
  | .psopt_level1_setup =>
    if c.problem.level1_done then .error .setup_order
    else .ok { c with problem := { c.problem with
        phases := List.replicate c.problem.nphases Phase.empty, level1_done := true } }
  | .set_nstates iphase n => c.setShape iphase (fun ph => { ph with nstates := n })
  | .set_ncontrols iphase n => c.setShape iphase (fun ph => { ph with ncontrols := n })
  | .set_nevents iphase n => c.setShape iphase (fun ph => { ph with nevents := n })
  | .set_npath iphase n => c.setShape iphase (fun ph => { ph with npath := n })
  | .set_nodes iphase nodes => c.setShape iphase (fun ph => { ph with nodes := nodes })
  | .psopt_level2_setup =>
    if c.problem.level1_done && !c.problem.level2_done then
      .ok { c with problem := { c.problem with
        phases := c.problem.phases.map (fun ph =>
          { ph with bounds := ⟨Bounds.alloc ph, Bounds.alloc ph⟩, guess := ⟨none, none, none⟩ }),
        level2_done := true } }
    else .error .setup_order
  | .set_bounds_states iphase side i v =>
    c.setBound iphase side (fun b =>
      match setEntry b.states i v with
      | .error err => .error err
      | .ok l => .ok { b with states := l })
  | .set_bounds_controls iphase side i v =>
    c.setBound iphase side (fun b =>
      match setEntry b.controls i v with
      | .error err => .error err
      | .ok l => .ok { b with controls := l })
  | .set_bounds_events iphase side i v =>
    c.setBound iphase side (fun b =>
      match setEntry b.events i v with
      | .error err => .error err
      | .ok l => .ok { b with events := l })
  | .set_bounds_path iphase side i v =>
    c.setBound iphase side (fun b =>
      match setEntry b.path i v with
      | .error err => .error err
      | .ok l => .ok { b with path := l })
  | .set_bounds_StartTime iphase side v =>
    c.setBound iphase side (fun b => .ok { b with StartTime := some v })
  | .set_bounds_EndTime iphase side v =>
    c.setBound iphase side (fun b => .ok { b with EndTime := some v })
  | .register cb => .ok { c with problem := { c.problem with callbacks := c.problem.callbacks ++ [cb] } }
  | .set_guess_controls iphase m => c.setGuess iphase (fun g => { g with controls := some m })
  | .set_guess_states iphase m => c.setGuess iphase (fun g => { g with states := some m })
  | .set_guess_time iphase m => c.setGuess iphase (fun g => { g with time := some m })
  | .set_nlp_method s => .ok { c with algorithm := { c.algorithm with nlp_method := s } }
  | .set_scaling s => .ok { c with algorithm := { c.algorithm with scaling := s } }
  | .set_derivatives s => .ok { c with algorithm := { c.algorithm with derivatives := s } }
  | .set_nlp_iter_max n => .ok { c with algorithm := { c.algorithm with nlp_iter_max := n } }
  | .set_nlp_tolerance v => .ok { c with algorithm := { c.algorithm with nlp_tolerance := v } }
  | .psopt _ _ => .ok c
  | .exit _ => .ok c
  | .get_states_in_phase _ => .ok c
  | .get_controls_in_phase _ => .ok c
  | .get_time_in_phase _ => .ok c
  | .Save _ _ => .ok c
  | .plot _ _ _ _ _ _ _ _ => .ok c

/-- Run a list of statements in order, stopping at the first error. -/
def execAll {M : Type} (c : Config M) : List (Stmt M) → Except ConfigurationError (Config M)
  | [] => .ok c
  | s :: rest =>
    match exec c s with
    | .error err => .error err
    | .ok c2 => execAll c2 rest

/-! ## The body of `main` -/

/-- The statements of `main` from `problem.name = ...` (line 138) to
`algorithm.nlp_tolerance = 1.e-6` (line 228), in source order. -/
def setup {M : Type} (lib : MatrixLib M) : List (Stmt M) :=
  [ .set_name "Hanging chain problem",
    .set_outfilename "chain.txt",
    .set_nphases 1,
    .set_nlinkages 0,
    .psopt_level1_setup,
    .set_nstates 1 1,
    .set_ncontrols 1 1,
    .set_nevents 1 3,
    .set_npath 1 0,
    .set_nodes 1 [20, 50],
    .psopt_level2_setup,
    .set_bounds_states 1 .lower 0 (-10),
    .set_bounds_states 1 .upper 0 10,
    .set_bounds_controls 1 .lower 0 (-20),
    .set_bounds_controls 1 .upper 0 20,
    .set_bounds_events 1 .lower 0 1,
    .set_bounds_events 1 .lower 1 3,
    .set_bounds_events 1 .lower 2 4,
    .set_bounds_events 1 .upper 0 1,
    .set_bounds_events 1 .upper 1 3,
    .set_bounds_events 1 .upper 2 4,
    .set_bounds_StartTime 1 .lower 0,
    .set_bounds_StartTime 1 .upper 0,
    .set_bounds_EndTime 1 .lower 1,
    .set_bounds_EndTime 1 .upper 1,
    .register .integrand_cost,
    .register .endpoint_cost,
    .register .dae,
    .register .events,
    .register .linkages,
    .set_guess_controls 1 (lib.smul 2 (lib.ones 1 30)),
    .set_guess_states 1 (lib.linspace 1 3 30),
    .set_guess_time 1 (lib.linspace 0 1 30),
    .set_nlp_method "IPOPT",
    .set_scaling "automatic",
    .set_derivatives "automatic",
    .set_nlp_iter_max 1000,
    .set_nlp_tolerance (1 / 1000000) ]

/-- The routine `main`, `chain.cxx` lines 123-274. The matrix helpers and the
library solver `psopt` are arguments: `psopt` receives the configured records
and returns the solution. A configuration error raised during the setup aborts
the run. -/
def main {M : Type} (lib : MatrixLib M) (psopt : Prob M → Alg → Sol M) :
    Except ConfigurationError (Run M) :=
  match execAll Config.init (setup lib) with
  | .error err => .error err
  | .ok c =>
    let problem := c.problem
    let algorithm := c.algorithm
    let solution := psopt problem algorithm
    if solution.error_flag then
      .ok ⟨setup lib ++ [.psopt problem algorithm, .exit 0], 0⟩
    else
      let x := solution.get_states_in_phase 1
      let u := solution.get_controls_in_phase 1
      let t := solution.get_time_in_phase 1
      .ok ⟨setup lib ++
        [ .psopt problem algorithm,
          .get_states_in_phase 1,
          .get_controls_in_phase 1,
          .get_time_in_phase 1,
          .Save x "x.dat",
          .Save u "u.dat",
          .Save t "t.dat",
          .plot t x (problem.name ++ ": state") "time (s)" "x" "x" none none,
          .plot t u (problem.name ++ ": control") "time (s)" "u" "u" none none,
          .plot t x (problem.name ++ ": state") "time (s)" "x" "x"
            (some "pdf") (some "chain_state.pdf"),
          .plot t u (problem.name ++ ": control") "time (s)" "u" "u"
            (some "pdf") (some "chain_control.pdf") ], 0⟩

/-! ## Vocabulary of the properties -/

/-- The configuration once the statements of `setup` have run, written out;
`execAll_setup` proves that this is what the execution yields. -/
def configured {M : Type} (lib : MatrixLib M) : Config M :=
  { problem :=
      { name := "Hanging chain problem",
        outfilename := "chain.txt",
        nphases := 1,
        nlinkages := 0,
        phases :=
          [ { nstates := 1, ncontrols := 1, nevents := 3, npath := 0, nodes := [20, 50],
              bounds :=
                { lower := ⟨[some (-10)], [some (-20)], [some 1, some 3, some 4], [],
                    some 0, some 1⟩,
                  upper := ⟨[some 10], [some 20], [some 1, some 3, some 4], [],
                    some 0, some 1⟩ },
              guess := ⟨some (lib.smul 2 (lib.ones 1 30)), some (lib.linspace 1 3 30),
                some (lib.linspace 0 1 30)⟩ } ],
        callbacks := [.integrand_cost, .endpoint_cost, .dae, .events, .linkages],
        level1_done := true,
        level2_done := true },
    algorithm :=
      { nlp_method := "IPOPT", scaling := "automatic", derivatives := "automatic",
        nlp_iter_max := 1000, nlp_tolerance := 1 / 1000000 } }

/-- A vector `v` lies within bound vectors `lower`, `upper`: every component
that has both bounds assigned is between them. -/
def withinBounds {α : Type} [LinearOrderedField α] (lower upper : List (Option ℚ))
    (v : Nat → α) : Prop :=
  ∀ i l u, lower.get? i = some (some l) → upper.get? i = some (some u) →
    (l : α) ≤ v i ∧ v i ≤ (u : α)

/-- A bound pair is well formed: both sides are assigned and `lower ≤ upper`. -/
def ordered (lower upper : Option ℚ) : Prop :=
  ∃ a b, lower = some a ∧ upper = some b ∧ a ≤ b

/-- The four kinds of bound vectors of a phase. -/
inductive BoundKind where
  | states
  | controls
  | events
  | path
deriving DecidableEq

/-- The declared dimension of a kind of bound vector. -/
def Phase.dim {M : Type} (ph : Phase M) : BoundKind → Nat
  | .states => ph.nstates
  | .controls => ph.ncontrols
  | .events => ph.nevents
  | .path => ph.npath

/-- The bound vector of a kind on one side. -/
def Bounds.vector (b : Bounds) : BoundKind → List (Option ℚ)
  | .states => b.states
  | .controls => b.controls
  | .events => b.events
  | .path => b.path

/-- The index that a statement writes in the bound vector `kind` on side `side`
of phase `iphase`, if it is such an assignment. -/
def Stmt.boundIndex {M : Type} (iphase : Nat) (kind : BoundKind) (side : Side) :
    Stmt M → Option Nat
  | .set_bounds_states p sd i _ =>
    if p = iphase ∧ sd = side ∧ kind = .states then some i else none
  | .set_bounds_controls p sd i _ =>
    if p = iphase ∧ sd = side ∧ kind = .controls then some i else none
  | .set_bounds_events p sd i _ =>
    if p = iphase ∧ sd = side ∧ kind = .events then some i else none
  | .set_bounds_path p sd i _ =>
    if p = iphase ∧ sd = side ∧ kind = .path then some i else none
  | _ => none

/-- The indices written, in order, in one bound vector by a list of statements. -/
def assignedIndices {M : Type} (iphase : Nat) (kind : BoundKind) (side : Side)
    (l : List (Stmt M)) : List Nat :=
  l.filterMap (Stmt.boundIndex iphase kind side)

/-- Assignment of `nphases` or `nlinkages`. -/
def Stmt.isCount {M : Type} : Stmt M → Bool
  | .set_nphases _ => true
  | .set_nlinkages _ => true
  | _ => false

/-- The call `psopt_level1_setup(problem)`. -/
def Stmt.isLevel1 {M : Type} : Stmt M → Bool
  | .psopt_level1_setup => true
  | _ => false

/-- Assignment of a phase dimension: `nstates`, `ncontrols`, `nevents`, `npath`. -/
def Stmt.isDim {M : Type} : Stmt M → Bool
  | .set_nstates _ _ => true
  | .set_ncontrols _ _ => true
  | .set_nevents _ _ => true
  | .set_npath _ _ => true
  | _ => false

/-- Assignment of the node-count sequence of a phase. -/
def Stmt.isNodes {M : Type} : Stmt M → Bool
  | .set_nodes _ _ => true
  | _ => false

/-- The call `psopt_level2_setup(problem, algorithm)`. -/
def Stmt.isLevel2 {M : Type} : Stmt M → Bool
  | .psopt_level2_setup => true
  | _ => false

/-- Assignment of a bound: a vector entry, `StartTime` or `EndTime`. -/
def Stmt.isBound {M : Type} : Stmt M → Bool
  | .set_bounds_states _ _ _ _ => true
  | .set_bounds_controls _ _ _ _ => true
  | .set_bounds_events _ _ _ _ => true
  | .set_bounds_path _ _ _ _ => true
  | .set_bounds_StartTime _ _ _ => true
  | .set_bounds_EndTime _ _ _ => true
  | _ => false

/-- Assignment of a guess trajectory. -/
def Stmt.isGuess {M : Type} : Stmt M → Bool
  | .set_guess_controls _ _ => true
  | .set_guess_states _ _ => true
  | .set_guess_time _ _ => true
  | _ => false

/-- The call `psopt(solution, problem, algorithm)`. -/
def Stmt.isPsopt {M : Type} : Stmt M → Bool
  | .psopt _ _ => true
  | _ => false

/-- The actions that follow a successful solve: extraction, `Save`, `plot`. -/
def Stmt.isPostSolve {M : Type} : Stmt M → Bool
  | .get_states_in_phase _ => true
  | .get_controls_in_phase _ => true
  | .get_time_in_phase _ => true
  | .Save _ _ => true
  | .plot _ _ _ _ _ _ _ _ => true
  | _ => false

/-- The records given to `psopt`, if the statement is a call of `psopt`. -/
def Stmt.psoptArgs {M : Type} : Stmt M → Option (Prob M × Alg)
  | .psopt problem algorithm => some (problem, algorithm)
  | _ => none

/-- The call `exit(status)`. -/
def Stmt.isExit {M : Type} : Stmt M → Bool
  | .exit _ => true
  | _ => false

/-- In the list `l`, every statement satisfying `p` occurs strictly before every
statement satisfying `q`. -/
def precedes {M : Type} (p q : Stmt M → Bool) (l : List (Stmt M)) : Prop :=
  ∀ i j (hi : i < l.length) (hj : j < l.length),
    p (l.get ⟨i, hi⟩) = true → q (l.get ⟨j, hj⟩) = true → i < j

/-- Executable check of `precedes`: at every statement satisfying `q`, neither
that statement nor any later one satisfies `p`. -/
def precedesB {M : Type} (p q : Stmt M → Bool) : List (Stmt M) → Bool
  | [] => true
  | a :: rest => (!(q a) || (!(p a) && rest.all (fun b => !(p b)))) && precedesB p q rest

/-- Some statement of `l` satisfies `p`. -/
def occurs {M : Type} (p : Stmt M → Bool) (l : List (Stmt M)) : Prop :=
  ∃ a ∈ l, p a = true

/-- One node of the discretisation grid of a phase: the state and control
arrays and the time at the node, and the quadrature weight of the node. -/
structure QuadNode (α : Type) where
  states : Nat → α
  controls : Nat → α
  time : α
  weight : α

/-- The grid of a phase as `integrate` reads it from the unknown vector and
the workspace: the nodes and the parameter array. -/
structure Grid (α : Type) where
  nodes : List (QuadNode α)
  parameters : Nat → α

/-- Modelled from the spec: `integrate` (the Quadrature Evaluator of section
4.4) is a library routine that is not defined in `chain.cxx`. Following the
spec it evaluates the integrand callback on the node grid of the phase and
combines the values with the quadrature weights of that grid. How the grid is
read from `xad`, `iphase` and `workspace` is the argument `grid`. -/
def integrate {α W : Type} [Semiring α] (grid : (Nat → α) → Int → W → Grid α)
    (g : IntegrandFn α W) (xad : Nat → α) (iphase : Int) (workspace : W) : α :=
  let G := grid xad iphase workspace
  (G.nodes.map (fun n =>
    n.weight * g n.states n.controls G.parameters n.time xad iphase workspace)).sum

/-! ## Double-precision values

The callbacks run on `adouble` values, whose value part is an IEEE 754
`double`. The model below keeps what the sign and zero properties of the
Lagrange cost depend on: rounding of finite results, overflow to an infinity,
and NaN. The two zeros of the format are identified, as `-0.0 == 0.0` holds. -/

/-- A binary floating-point arithmetic. `rnd` rounds an exact result to a value
of the format as if the exponent range were unbounded, `maxFinite` is the
largest finite value, `fsqrt` is the rounded square root of a non-negative
value. The remaining fields are the properties used: rounding is monotone and
leaves the values of the format unchanged, 0 and 1 are values of the format,
the rounded square root is a value of the format and is at least 1 on
`[1, ∞)`. Round-to-nearest of IEEE 754 binary64 with a correctly rounded
square root has these properties. -/
structure Rounding where
  rnd : ℚ → ℚ
  maxFinite : ℚ
  fsqrt : ℚ → ℚ
  rnd_mono : ∀ a b, a ≤ b → rnd a ≤ rnd b
  rnd_idem : ∀ a, rnd (rnd a) = rnd a
  rnd_zero : rnd 0 = 0
  rnd_one : rnd 1 = 1
  one_le_maxFinite : 1 ≤ maxFinite
  fsqrt_rnd : ∀ a, rnd (fsqrt a) = fsqrt a
  one_le_fsqrt : ∀ a, 1 ≤ a → 1 ≤ fsqrt a

/-- The values of the format: a finite value (a rational that rounding leaves
unchanged), the two infinities, and NaN. -/
inductive Dbl (R : Rounding) where
  | fin (q : ℚ) (h : R.rnd q = q)
  | pinf
  | ninf
  | nan

/-- The result of an operation whose exact value is `q`: `q` rounded, or an
infinity when the rounded value exceeds the largest finite value. -/
def Dbl.ofExact (R : Rounding) (q : ℚ) : Dbl R :=
  if R.maxFinite < R.rnd q then .pinf
  else if R.rnd q < -R.maxFinite then .ninf
  else .fin (R.rnd q) (R.rnd_idem q)

/-- Addition of the format. -/
def Dbl.add {R : Rounding} : Dbl R → Dbl R → Dbl R
  | .fin a _, .fin b _ => Dbl.ofExact R (a + b)
  | .fin _ _, .pinf => .pinf
  | .fin _ _, .ninf => .ninf
  | .fin _ _, .nan => .nan
  | .pinf, .fin _ _ => .pinf
  | .pinf, .pinf => .pinf
  | .pinf, .ninf => .nan
  | .pinf, .nan => .nan
  | .ninf, .fin _ _ => .ninf
  | .ninf, .pinf => .nan
  | .ninf, .ninf => .ninf
  | .ninf, .nan => .nan
  | .nan, _ => .nan

/-- The product of a finite value `a` and an infinity whose sign is positive
iff `pos`: an infinity with the product of the signs, NaN when `a` is zero. -/
def Dbl.mulInf {R : Rounding} (a : ℚ) (pos : Bool) : Dbl R :=
  if 0 < a then (if pos then .pinf else .ninf)
  else if a < 0 then (if pos then .ninf else .pinf)
  else .nan

/-- Multiplication of the format. -/
def Dbl.mul {R : Rounding} : Dbl R → Dbl R → Dbl R
  | .fin a _, .fin b _ => Dbl.ofExact R (a * b)
  | .fin a _, .pinf => Dbl.mulInf a true
  | .fin a _, .ninf => Dbl.mulInf a false
  | .fin _ _, .nan => .nan
  | .pinf, .fin b _ => Dbl.mulInf b true
  | .pinf, .pinf => .pinf
  | .pinf, .ninf => .ninf
  | .pinf, .nan => .nan
  | .ninf, .fin b _ => Dbl.mulInf b false
  | .ninf, .pinf => .ninf
  | .ninf, .ninf => .pinf
  | .ninf, .nan => .nan
  | .nan, _ => .nan

/-- Square root of the format: NaN on negative values and on NaN. -/
def Dbl.sqrt {R : Rounding} : Dbl R → Dbl R
  | .fin a _ => if a < 0 then .nan else .fin (R.fsqrt a) (R.fsqrt_rnd a)
  | .pinf => .pinf
  | .ninf => .nan
  | .nan => .nan

instance (R : Rounding) : Zero (Dbl R) := ⟨.fin 0 R.rnd_zero⟩

instance (R : Rounding) : One (Dbl R) := ⟨.fin 1 R.rnd_one⟩

instance (R : Rounding) : Add (Dbl R) := ⟨Dbl.add⟩

instance (R : Rounding) : Mul (Dbl R) := ⟨Dbl.mul⟩

/-- Power with a natural exponent by repeated multiplication; `x ^ 2` is
`x * x`, the correctly rounded value of `pow(x, 2.0)`. -/
def Dbl.npow {R : Rounding} (x : Dbl R) : Nat → Dbl R
  | 0 => 1
  | 1 => x
  | n + 2 => Dbl.mul (Dbl.npow x (n + 1)) x

instance (R : Rounding) : Pow (Dbl R) Nat := ⟨Dbl.npow⟩

/-- The value is a finite number. -/
def Dbl.isFinite {R : Rounding} : Dbl R → Bool
  | .fin _ _ => true
  | _ => false

/-- The sign of a value; NaN has none. -/
def Dbl.sign {R : Rounding} : Dbl R → Option SignType
  | .fin a _ => some (SignType.sign a)
  | .pinf => some 1
  | .ninf => some (-1)
  | .nan => none

/-- The arithmetic with the range of IEEE 754 binary64 in which sums and
products are not rounded: a result is exact unless it exceeds the largest
finite binary64 value `(2^53 - 1) * 2^971`. The square root is truncated to 52
fractional bits. -/
def Rounding.exact : Rounding where
  rnd := fun q => q
  maxFinite := (2 ^ 53 - 1) * 2 ^ 971
  fsqrt := fun a => (Nat.sqrt ⌊a * 4 ^ 52⌋₊ : ℚ) / 2 ^ 52
  rnd_mono := fun _ _ h => h
  rnd_idem := fun _ => rfl
  rnd_zero := rfl
  rnd_one := rfl
  one_le_maxFinite := by norm_num
  fsqrt_rnd := fun _ => rfl
  one_le_fsqrt := by
    intro a ha
    rw [le_div_iff₀ (by positivity), one_mul]
    have h1 : (2 ^ 52 : ℕ) ≤ Nat.sqrt ⌊a * 4 ^ 52⌋₊ := by
      rw [Nat.le_sqrt]
      apply Nat.le_floor
      push_cast
      have h4 : (0 : ℚ) < 4 ^ 52 := by positivity
      nlinarith
    exact_mod_cast h1

/-! ## Theorems -/

theorem execAll_setup {M : Type} (lib : MatrixLib M) :
    execAll Config.init (setup lib) = .ok (configured lib) := by
  simp [execAll, setup, exec, Config.init, Prob.init, Alg.init, Config.setShape,
    Config.setBound, Config.setGuess, Prob.modifyPhase, BoundsPair.modify, setEntry,
    Bounds.alloc, Phase.empty, configured]

theorem withinBounds_events_iff {α : Type} [LinearOrderedField α] (v : Nat → α) :
    withinBounds [some 1, some 3, some 4] [some 1, some 3, some 4] v ↔
      v 0 = 1 ∧ v 1 = 3 ∧ v 2 = 4 := by
  constructor
  · intro h
    have h0 := h 0 1 1 rfl rfl
    have h1 := h 1 3 3 rfl rfl
    have h2 := h 2 4 4 rfl rfl
    simp only [Rat.cast_one, Rat.cast_ofNat] at h0 h1 h2
    exact ⟨le_antisymm h0.2 h0.1, le_antisymm h1.2 h1.1, le_antisymm h2.2 h2.1⟩
  · rintro ⟨h0, h1, h2⟩ i l u hl hu
    match i, hl, hu with
    | 0, hl, hu =>
      simp at hl hu; subst hl; subst hu; simp [h0]
    | 1, hl, hu =>
      simp at hl hu; subst hl; subst hu; simp [h1]
    | 2, hl, hu =>
      simp at hl hu; subst hl; subst hu; simp [h2]
    | (n + 3), hl, hu => simp at hl

/-- C1: `events` stores `initial_states[0]`, `final_states[0]` and the value `Q`
returned by `integrate(integrand, ...)` in `e[0]`, `e[1]`, `e[2]` and leaves every
other entry of `e` as it was; and with the event bounds that `main` sets, the
event vector lies within its bounds exactly when `initial_states[0] = 1`,
`final_states[0] = 3` and `Q = 4`. -/
theorem events_writes_and_meets_bounds {α W M : Type} [LinearOrderedField α]
    (lib : MatrixLib M) (sqrt : α → α)
    (integrate : IntegrandFn α W → (Nat → α) → Int → W → α)
    (e initial_states final_states parameters : Nat → α) (t0 tf : α) (xad : Nat → α)
    (iphase : Int) (workspace : W) :
    events sqrt integrate e initial_states final_states parameters t0 tf xad iphase workspace 0
        = initial_states 0 ∧
    events sqrt integrate e initial_states final_states parameters t0 tf xad iphase workspace 1
        = final_states 0 ∧
    events sqrt integrate e initial_states final_states parameters t0 tf xad iphase workspace 2
        = integrate (integrand sqrt) xad iphase workspace ∧
    (∀ i, 3 ≤ i →
      events sqrt integrate e initial_states final_states parameters t0 tf xad iphase workspace i
        = e i) ∧
    ∃ c ph, execAll Config.init (setup lib) = .ok c ∧ c.problem.phases = [ph] ∧
      ph.nevents = 3 ∧
      ph.bounds.lower.events = [some 1, some 3, some 4] ∧
      ph.bounds.upper.events = [some 1, some 3, some 4] ∧
      (withinBounds ph.bounds.lower.events ph.bounds.upper.events
          (events sqrt integrate e initial_states final_states parameters t0 tf xad iphase
            workspace) ↔
        initial_states 0 = 1 ∧ final_states 0 = 3 ∧
          integrate (integrand sqrt) xad iphase workspace = 4) := by
  have w0 : events sqrt integrate e initial_states final_states parameters t0 tf xad iphase
      workspace 0 = initial_states 0 := by
    simp [events, Function.update]
  have w1 : events sqrt integrate e initial_states final_states parameters t0 tf xad iphase
      workspace 1 = final_states 0 := by
    simp [events, Function.update]
  have w2 : events sqrt integrate e initial_states final_states parameters t0 tf xad iphase
      workspace 2 = integrate (integrand sqrt) xad iphase workspace := by
    simp [events, Function.update]
  refine ⟨w0, w1, w2, ?_, configured lib, _, execAll_setup lib, rfl, rfl, rfl, rfl, ?_⟩
  · intro i hi
    have h0 : i ≠ 0 := by omega
    have h1 : i ≠ 1 := by omega
    have h2 : i ≠ 2 := by omega
    simp [events, Function.update, h0, h1, h2]
  · show withinBounds [some 1, some 3, some 4] [some 1, some 3, some 4] _ ↔ _
    rw [withinBounds_events_iff, w0, w1, w2]

/-- C3: in the record that `main` configures, every bound vector of phase 1
has exactly as many entries as the declared dimension of its kind, every entry
and both time bounds have a lower and an upper value with `lower ≤ upper`; and
the indices that `main` writes in each bound vector, on each side, are exactly
`0, ..., dim - 1` for the declared dimension `dim` of that kind (one state, one
control, three events, no path constraint), so none lies outside the declared
size. -/
theorem main_bounds_ordered_and_complete {M : Type} (lib : MatrixLib M) :
    ∃ c ph, execAll Config.init (setup lib) = .ok c ∧ c.problem.phases = [ph] ∧
      ph.nstates = 1 ∧ ph.ncontrols = 1 ∧ ph.nevents = 3 ∧ ph.npath = 0 ∧
      (∀ kind : BoundKind,
        (ph.bounds.lower.vector kind).length = ph.dim kind ∧
        (ph.bounds.upper.vector kind).length = ph.dim kind ∧
        List.Forall₂ ordered (ph.bounds.lower.vector kind) (ph.bounds.upper.vector kind)) ∧
      ordered ph.bounds.lower.StartTime ph.bounds.upper.StartTime ∧
      ordered ph.bounds.lower.EndTime ph.bounds.upper.EndTime ∧
      (∀ (kind : BoundKind) (side : Side),
        assignedIndices 1 kind side (setup lib) = List.range (ph.dim kind)) ∧
      (∀ (iphase : Nat) (kind : BoundKind) (side : Side), iphase ≠ 1 →
        assignedIndices iphase kind side (setup lib) = []) := by
  refine ⟨configured lib, _, execAll_setup lib, rfl, rfl, rfl, rfl, rfl, ?_, ?_, ?_, ?_, ?_⟩
  · intro kind
    cases kind
    · exact ⟨rfl, rfl, .cons ⟨-10, 10, rfl, rfl, by norm_num⟩ .nil⟩
    · exact ⟨rfl, rfl, .cons ⟨-20, 20, rfl, rfl, by norm_num⟩ .nil⟩
    · exact ⟨rfl, rfl, .cons ⟨1, 1, rfl, rfl, le_refl _⟩
        (.cons ⟨3, 3, rfl, rfl, le_refl _⟩ (.cons ⟨4, 4, rfl, rfl, le_refl _⟩ .nil))⟩
    · exact ⟨rfl, rfl, .nil⟩
  · exact ⟨0, 0, rfl, rfl, le_refl _⟩
  · exact ⟨1, 1, rfl, rfl, le_refl _⟩
  · intro kind side
    cases kind <;> cases side <;> rfl
  · intro iphase kind side h
    have h2 : ¬ (1 = iphase) := fun e => h e.symm
    simp [assignedIndices, setup, Stmt.boundIndex, h2]

/-- C4: `dae` stores `controls[0]` in `derivatives[0]`, leaves every other
entry of `derivatives` and the whole `path` array as they were, and its result
is the same for any other state array and time; the only entry written lies
within the declared `nstates = 1`, and no entry of `path` is written, matching
the declared `npath = 0`. -/
theorem dae_writes_only_first_derivative {α W M : Type} (lib : MatrixLib M)
    (derivatives path states controls parameters : Nat → α) (time : α) (xad : Nat → α)
    (iphase : Int) (workspace : W) :
    (dae derivatives path states controls parameters time xad iphase workspace).1 0
        = controls 0 ∧
    (∀ i, i ≠ 0 →
      (dae derivatives path states controls parameters time xad iphase workspace).1 i
        = derivatives i) ∧
    (dae derivatives path states controls parameters time xad iphase workspace).2 = path ∧
    (∀ (states2 : Nat → α) (time2 : α),
      dae derivatives path states2 controls parameters time2 xad iphase workspace
        = dae derivatives path states controls parameters time xad iphase workspace) ∧
    ∃ c ph, execAll Config.init (setup lib) = .ok c ∧ c.problem.phases = [ph] ∧
      ph.nstates = 1 ∧ ph.npath = 0 ∧
      (∀ i, ph.nstates ≤ i →
        (dae derivatives path states controls parameters time xad iphase workspace).1 i
          = derivatives i) ∧
      (∀ i, ph.npath ≤ i →
        (dae derivatives path states controls parameters time xad iphase workspace).2 i
          = path i) := by
  refine ⟨by simp [dae], ?_, rfl, fun _ _ => rfl, configured lib, _, execAll_setup lib, rfl, rfl, rfl,
    ?_, fun _ _ => rfl⟩
  · intro i hi
    simp [dae, Function.update, hi]
  · intro i hi
    have h0 : i ≠ 0 := by
      have : (1 : Nat) ≤ i := hi
      omega
    simp [dae, Function.update, h0]

/-- C5: `linkages` returns the linkage residual array exactly as it received
it, whatever the unknown vector and the workspace, and the problem record that
`main` configures declares `nphases = 1` and `nlinkages = 0`. -/
theorem linkages_is_noop {α W M : Type} (lib : MatrixLib M) (residuals xad : Nat → α)
    (workspace : W) :
    linkages residuals xad workspace = residuals ∧
    ∃ c, execAll Config.init (setup lib) = .ok c ∧ c.problem.nphases = 1 ∧
      c.problem.nlinkages = 0 :=
  ⟨rfl, configured lib, execAll_setup lib, rfl, rfl⟩

theorem precedesB_sound {M : Type} (p q : Stmt M → Bool) :
    ∀ l : List (Stmt M), precedesB p q l = true → precedes p q l := by
  intro l
  induction l with
  | nil =>
    intro _ i j hi
    exact absurd hi (Nat.not_lt_zero i)
  | cons a rest ih =>
    intro h i j hi hj hp hq
    simp only [precedesB, Bool.and_eq_true, Bool.or_eq_true, Bool.not_eq_true',
      List.all_eq_true] at h
    obtain ⟨hhead, hrest⟩ := h
    cases j with
    | zero =>
      have hqa : q a = true := hq
      rcases hhead with hqf | ⟨hpa, hall⟩
      · rw [hqa] at hqf
        exact absurd hqf (by decide)
      · cases i with
        | zero =>
          have hpa2 : p a = true := hp
          rw [hpa2] at hpa
          exact absurd hpa (by decide)
        | succ i2 =>
          have hi2 : i2 < rest.length := Nat.lt_of_succ_lt_succ hi
          have hmem : rest.get ⟨i2, hi2⟩ ∈ rest := List.get_mem rest i2 hi2
          have hpf := hall _ hmem
          have hpt : p (rest.get ⟨i2, hi2⟩) = true := hp
          rw [hpt] at hpf
          exact absurd hpf (by decide)
    | succ j2 =>
      cases i with
      | zero => exact Nat.succ_pos j2
      | succ i2 =>
        have hi2 : i2 < rest.length := Nat.lt_of_succ_lt_succ hi
        have hj2 : j2 < rest.length := Nat.lt_of_succ_lt_succ hj
        exact Nat.succ_lt_succ (ih hrest i2 j2 hi2 hj2 hp hq)


theorem not_occurs_of_any_false {M : Type} (p : Stmt M → Bool) (l : List (Stmt M))
    (h : l.any p = false) : ¬ occurs p l := by
  rintro ⟨a, ha, hpa⟩
  have hany : l.any p = true := List.any_eq_true.mpr ⟨a, ha, hpa⟩
  rw [h] at hany
  exact absurd hany (by decide)

theorem main_of_error {M : Type} (lib : MatrixLib M) (psopt : Prob M → Alg → Sol M)
    (h : (psopt (configured lib).problem (configured lib).algorithm).error_flag = true) :
    main lib psopt = .ok ⟨setup lib ++ [.psopt (configured lib).problem (configured lib).algorithm, .exit 0], 0⟩ := by
  simp [main, execAll_setup lib, h]

theorem main_of_success {M : Type} (lib : MatrixLib M) (psopt : Prob M → Alg → Sol M)
    (h : (psopt (configured lib).problem (configured lib).algorithm).error_flag = false) :
    main lib psopt = .ok ⟨setup lib ++
      [ .psopt (configured lib).problem (configured lib).algorithm,
        .get_states_in_phase 1,
        .get_controls_in_phase 1,
        .get_time_in_phase 1,
        .Save ((psopt (configured lib).problem (configured lib).algorithm).get_states_in_phase 1) "x.dat",
        .Save ((psopt (configured lib).problem (configured lib).algorithm).get_controls_in_phase 1) "u.dat",
        .Save ((psopt (configured lib).problem (configured lib).algorithm).get_time_in_phase 1) "t.dat",
        .plot ((psopt (configured lib).problem (configured lib).algorithm).get_time_in_phase 1)
          ((psopt (configured lib).problem (configured lib).algorithm).get_states_in_phase 1)
          "Hanging chain problem: state" "time (s)" "x" "x" none none,
        .plot ((psopt (configured lib).problem (configured lib).algorithm).get_time_in_phase 1)
          ((psopt (configured lib).problem (configured lib).algorithm).get_controls_in_phase 1)
          "Hanging chain problem: control" "time (s)" "u" "u" none none,
        .plot ((psopt (configured lib).problem (configured lib).algorithm).get_time_in_phase 1)
          ((psopt (configured lib).problem (configured lib).algorithm).get_states_in_phase 1)
          "Hanging chain problem: state" "time (s)" "x" "x"
          (some "pdf") (some "chain_state.pdf"),
        .plot ((psopt (configured lib).problem (configured lib).algorithm).get_time_in_phase 1)
          ((psopt (configured lib).problem (configured lib).algorithm).get_controls_in_phase 1)
          "Hanging chain problem: control" "time (s)" "u" "u"
          (some "pdf") (some "chain_control.pdf") ], 0⟩ := by
  simp only [main, execAll_setup lib, h, Bool.false_eq_true, if_false]
  rfl

/-- C2: the setup statements of `main` run without a configuration error and
produce a problem record that is the hanging-chain scenario: one phase, no
linkage, and in phase 1 one state, one control, three events, no path
constraint, node sequence `[20, 50]`, state bounds `[-10, 10]`, control bounds
`[-20, 20]`, event bounds lower = upper = `(1, 3, 4)`, `StartTime` bounds `[0, 0]`,
`EndTime` bounds `[1, 1]`. This record is the one handed to `psopt`: whatever
`psopt` is, `main` calls it exactly once, on this record and the configured
algorithm record, and whether `main` then calls `exit` is decided by the error
flag that `psopt` returns for these two records. -/
theorem main_problem_is_hanging_chain {M : Type} (lib : MatrixLib M) :
    ∃ c ph, execAll Config.init (setup lib) = .ok c ∧
      (∀ psopt : Prob M → Alg → Sol M, ∃ r, main lib psopt = .ok r ∧
        r.trace.filterMap Stmt.psoptArgs = [(c.problem, c.algorithm)] ∧
        (occurs Stmt.isExit r.trace ↔ (psopt c.problem c.algorithm).error_flag = true) ∧
        (occurs Stmt.isPostSolve r.trace ↔
          (psopt c.problem c.algorithm).error_flag = false) ∧
        main lib psopt = main lib (fun _ _ => psopt c.problem c.algorithm)) ∧
      c.problem.nphases = 1 ∧ c.problem.nlinkages = 0 ∧
      c.problem.phases = [ph] ∧
      ph.nstates = 1 ∧ ph.ncontrols = 1 ∧ ph.nevents = 3 ∧ ph.npath = 0 ∧
      ph.nodes = [20, 50] ∧
      ph.bounds.lower.states = [some (-10)] ∧ ph.bounds.upper.states = [some 10] ∧
      ph.bounds.lower.controls = [some (-20)] ∧ ph.bounds.upper.controls = [some 20] ∧
      ph.bounds.lower.events = [some 1, some 3, some 4] ∧
      ph.bounds.upper.events = [some 1, some 3, some 4] ∧
      ph.bounds.lower.path = [] ∧ ph.bounds.upper.path = [] ∧
      ph.bounds.lower.StartTime = some 0 ∧ ph.bounds.upper.StartTime = some 0 ∧
      ph.bounds.lower.EndTime = some 1 ∧ ph.bounds.upper.EndTime = some 1 := by
  refine ⟨configured lib, _, execAll_setup lib, ?_, rfl, rfl, rfl, rfl, rfl, rfl,
    rfl, rfl, rfl, rfl, rfl, rfl, rfl, rfl, rfl, rfl, rfl, rfl, rfl, rfl⟩
  intro psopt
  have hdep : main lib psopt
      = main lib (fun _ _ => psopt (configured lib).problem (configured lib).algorithm) := by
    simp [main, execAll_setup lib]
  cases h : (psopt (configured lib).problem (configured lib).algorithm).error_flag with
  | true =>
    refine ⟨_, main_of_error lib psopt h, rfl, ?_, ?_, hdep⟩
    · exact ⟨fun _ => rfl, fun _ => ⟨.exit 0, by simp, rfl⟩⟩
    · exact ⟨fun ho => absurd ho (not_occurs_of_any_false _ _ rfl),
        fun h2 => absurd h2 (by decide)⟩
  | false =>
    refine ⟨_, main_of_success lib psopt h, rfl, ?_, ?_, hdep⟩
    · exact ⟨fun ho => absurd ho (not_occurs_of_any_false _ _ rfl),
        fun h2 => absurd h2 (by decide)⟩
    · exact ⟨fun _ => rfl, fun _ => ⟨.get_states_in_phase 1, by simp, rfl⟩⟩

/-- C6: whatever `psopt` returns, `main` ends with exit status 0. When
`solution.error_flag` is set, the call of `psopt` is followed by `exit(0)` and
by nothing else, so no extraction, `Save` or `plot` action is performed. When
the flag is clear, the call of `psopt` is followed by `get_states_in_phase`,
`get_controls_in_phase`, `get_time_in_phase`, the three `Save` calls and the
four `plot` calls, in this order, and `exit` is not called. Hence an
extraction, `Save` or `plot` action occurs if and only if the flag is clear. -/
theorem main_post_solve_iff_no_error {M : Type} (lib : MatrixLib M)
    (psopt : Prob M → Alg → Sol M) :
    ∃ c r, execAll Config.init (setup lib) = .ok c ∧ main lib psopt = .ok r ∧ r.status = 0 ∧
      ((psopt c.problem c.algorithm).error_flag = true →
        r.trace = setup lib ++ [.psopt c.problem c.algorithm, .exit 0] ∧
        r.trace.filter Stmt.isPostSolve = []) ∧
      ((psopt c.problem c.algorithm).error_flag = false →
        r.trace = setup lib ++
          [ .psopt c.problem c.algorithm,
            .get_states_in_phase 1,
            .get_controls_in_phase 1,
            .get_time_in_phase 1,
            .Save ((psopt c.problem c.algorithm).get_states_in_phase 1) "x.dat",
            .Save ((psopt c.problem c.algorithm).get_controls_in_phase 1) "u.dat",
            .Save ((psopt c.problem c.algorithm).get_time_in_phase 1) "t.dat",
            .plot ((psopt c.problem c.algorithm).get_time_in_phase 1)
              ((psopt c.problem c.algorithm).get_states_in_phase 1)
              "Hanging chain problem: state" "time (s)" "x" "x" none none,
            .plot ((psopt c.problem c.algorithm).get_time_in_phase 1)
              ((psopt c.problem c.algorithm).get_controls_in_phase 1)
              "Hanging chain problem: control" "time (s)" "u" "u" none none,
            .plot ((psopt c.problem c.algorithm).get_time_in_phase 1)
              ((psopt c.problem c.algorithm).get_states_in_phase 1)
              "Hanging chain problem: state" "time (s)" "x" "x"
              (some "pdf") (some "chain_state.pdf"),
            .plot ((psopt c.problem c.algorithm).get_time_in_phase 1)
              ((psopt c.problem c.algorithm).get_controls_in_phase 1)
              "Hanging chain problem: control" "time (s)" "u" "u"
              (some "pdf") (some "chain_control.pdf") ] ∧
        r.trace.filter Stmt.isExit = []) ∧
      (occurs Stmt.isPostSolve r.trace ↔ (psopt c.problem c.algorithm).error_flag = false) := by
  cases h : (psopt (configured lib).problem (configured lib).algorithm).error_flag with
  | true =>
    refine ⟨configured lib, _, execAll_setup lib, main_of_error lib psopt h, rfl, ?_, ?_, ?_⟩
    · intro _
      exact ⟨rfl, rfl⟩
    · intro h2
      rw [h] at h2
      exact absurd h2 (by decide)
    · rw [h]
      exact ⟨fun ho => absurd ho (not_occurs_of_any_false _ _ rfl),
        fun h2 => absurd h2 (by decide)⟩
  | false =>
    refine ⟨configured lib, _, execAll_setup lib, main_of_success lib psopt h, rfl, ?_, ?_, ?_⟩
    · intro h2
      rw [h] at h2
      exact absurd h2 (by decide)
    · intro _
      exact ⟨rfl, rfl⟩
    · rw [h]
      exact ⟨fun _ => rfl, fun _ => ⟨.get_states_in_phase 1, by simp, rfl⟩⟩

/-- C7: whatever `psopt` returns, `main` runs to completion without a
configuration error, and in the sequence of actions it performs: `nphases` and
`nlinkages` are assigned before `psopt_level1_setup`; the four phase dimensions
are assigned after `psopt_level1_setup` and before every node-count, bound and
guess assignment; `psopt_level2_setup` is called after the level-1 setup and the
dimension assignments and before every bound and guess assignment; and every
bound and guess assignment precedes the call of `psopt`. Each of these actions
does occur. -/
theorem main_respects_two_level_setup {M : Type} (lib : MatrixLib M)
    (psopt : Prob M → Alg → Sol M) :
    ∃ r, main lib psopt = .ok r ∧
      (∃ n, Stmt.set_nphases n ∈ r.trace) ∧ (∃ n, Stmt.set_nlinkages n ∈ r.trace) ∧
      occurs Stmt.isLevel1 r.trace ∧
      precedes Stmt.isCount Stmt.isLevel1 r.trace ∧
      (∃ n, Stmt.set_nstates 1 n ∈ r.trace) ∧ (∃ n, Stmt.set_ncontrols 1 n ∈ r.trace) ∧
      (∃ n, Stmt.set_nevents 1 n ∈ r.trace) ∧ (∃ n, Stmt.set_npath 1 n ∈ r.trace) ∧
      precedes Stmt.isLevel1 Stmt.isDim r.trace ∧
      occurs Stmt.isNodes r.trace ∧ occurs Stmt.isBound r.trace ∧
      occurs Stmt.isGuess r.trace ∧
      precedes Stmt.isDim (fun s => s.isNodes || s.isBound || s.isGuess) r.trace ∧
      occurs Stmt.isLevel2 r.trace ∧
      precedes Stmt.isLevel1 Stmt.isLevel2 r.trace ∧
      precedes Stmt.isDim Stmt.isLevel2 r.trace ∧
      precedes Stmt.isLevel2 (fun s => s.isBound || s.isGuess) r.trace ∧
      occurs Stmt.isPsopt r.trace ∧
      precedes (fun s => s.isBound || s.isGuess) Stmt.isPsopt r.trace := by
  cases h : (psopt (configured lib).problem (configured lib).algorithm).error_flag with
  | true =>
    exact ⟨_, main_of_error lib psopt h,
      ⟨1, by simp [setup]⟩, ⟨0, by simp [setup]⟩,
      ⟨.psopt_level1_setup, by simp [setup], rfl⟩,
      precedesB_sound _ _ _ rfl,
      ⟨1, by simp [setup]⟩, ⟨1, by simp [setup]⟩, ⟨3, by simp [setup]⟩, ⟨0, by simp [setup]⟩,
      precedesB_sound _ _ _ rfl,
      ⟨.set_nodes 1 [20, 50], by simp [setup], rfl⟩,
      ⟨.set_bounds_StartTime 1 .lower 0, by simp [setup], rfl⟩,
      ⟨.set_guess_time 1 (lib.linspace 0 1 30), by simp [setup], rfl⟩,
      precedesB_sound _ _ _ rfl,
      ⟨.psopt_level2_setup, by simp [setup], rfl⟩,
      precedesB_sound _ _ _ rfl,
      precedesB_sound _ _ _ rfl,
      precedesB_sound _ _ _ rfl,
      ⟨.psopt (configured lib).problem (configured lib).algorithm, by simp, rfl⟩,
      precedesB_sound _ _ _ rfl⟩
  | false =>
    exact ⟨_, main_of_success lib psopt h,
      ⟨1, by simp [setup]⟩, ⟨0, by simp [setup]⟩,
      ⟨.psopt_level1_setup, by simp [setup], rfl⟩,
      precedesB_sound _ _ _ rfl,
      ⟨1, by simp [setup]⟩, ⟨1, by simp [setup]⟩, ⟨3, by simp [setup]⟩, ⟨0, by simp [setup]⟩,
      precedesB_sound _ _ _ rfl,
      ⟨.set_nodes 1 [20, 50], by simp [setup], rfl⟩,
      ⟨.set_bounds_StartTime 1 .lower 0, by simp [setup], rfl⟩,
      ⟨.set_guess_time 1 (lib.linspace 0 1 30), by simp [setup], rfl⟩,
      precedesB_sound _ _ _ rfl,
      ⟨.psopt_level2_setup, by simp [setup], rfl⟩,
      precedesB_sound _ _ _ rfl,
      precedesB_sound _ _ _ rfl,
      precedesB_sound _ _ _ rfl,
      ⟨.psopt (configured lib).problem (configured lib).algorithm, by simp, rfl⟩,
      precedesB_sound _ _ _ rfl⟩

theorem one_le_sqrt_arg (u : ℝ) : 1 ≤ 1 + u ^ 2 := by
  have h : 0 ≤ u ^ 2 := sq_nonneg u
  linarith

theorem one_le_integrand {W : Type} (states controls parameters : Nat → ℝ) (time : ℝ)
    (xad : Nat → ℝ) (iphase : Int) (workspace : W) :
    1 ≤ integrand Real.sqrt states controls parameters time xad iphase workspace := by
  show 1 ≤ Real.sqrt (1 + controls 0 ^ 2)
  rw [Real.one_le_sqrt]
  exact one_le_sqrt_arg (controls 0)

theorem sum_weights_le_integrate {W : Type} (grid : (Nat → ℝ) → Int → W → Grid ℝ)
    (xad : Nat → ℝ) (iphase : Int) (workspace : W)
    (hw : ∀ n ∈ (grid xad iphase workspace).nodes, 0 ≤ n.weight) :
    ((grid xad iphase workspace).nodes.map (fun n => n.weight)).sum
      ≤ integrate grid (integrand Real.sqrt) xad iphase workspace := by
  unfold integrate
  simp only
  generalize (grid xad iphase workspace).parameters = ps
  revert hw
  generalize (grid xad iphase workspace).nodes = ns
  intro hw
  induction ns with
  | nil => simp
  | cons n rest ih =>
    simp only [List.map_cons, List.sum_cons]
    have h1 : n.weight ≤ n.weight * integrand Real.sqrt n.states n.controls ps n.time xad iphase
        workspace :=
      le_mul_of_one_le_right (hw n (List.mem_cons_self n rest)) (one_le_integrand _ _ _ _ _ _ _)
    have h2 := ih (fun m hm => hw m (List.mem_cons_of_mem n hm))
    linarith

theorem one_le_integral_integrand {W : Type} (x u : ℝ → Nat → ℝ) (parameters xad : Nat → ℝ)
    (iphase : Int) (workspace : W)
    (hf : IntervalIntegrable
      (fun t => integrand Real.sqrt (x t) (u t) parameters t xad iphase workspace)
      MeasureTheory.volume 0 1) :
    1 ≤ ∫ t in (0 : ℝ)..1, integrand Real.sqrt (x t) (u t) parameters t xad iphase workspace := by
  have h := intervalIntegral.integral_mono_on (μ := MeasureTheory.volume)
    (zero_le_one : (0 : ℝ) ≤ 1) (intervalIntegrable_const (c := (1 : ℝ))) hf
    (fun t _ => one_le_integrand (x t) (u t) parameters t xad iphase workspace)
  simpa using h

/-- C8: for every real control value `u` the argument `1 + u^2` of the square
root in `integrand` and `integrand_cost` is at least 1, so both callbacks only
ever use the square root on `[1, ∞)` (replacing it by any function that agrees
with it there does not change their results), and `integrand` returns a value
`≥ 1` on every input. Consequently, over the fixed horizon `t0 = 0`, `tf = 1`
that `main` sets, the constrained integral `e[2]` computed by a quadrature with
non-negative weights summing to `tf - t0` is at least 1, as is the exact
integral of the integrand along any trajectory on `[0, 1]`; and 1 does not
exceed the bound 4 that `main` sets on `e[2]`. -/
theorem sqrt_argument_and_integral_lower_bound {W M : Type} (lib : MatrixLib M)
    (grid : (Nat → ℝ) → Int → W → Grid ℝ)
    (e initial_states final_states parameters : Nat → ℝ) (t0 tf : ℝ) (xad : Nat → ℝ)
    (iphase : Int) (workspace : W)
    (hw : ∀ n ∈ (grid xad iphase workspace).nodes, 0 ≤ n.weight)
    (hsum : ((grid xad iphase workspace).nodes.map (fun n => n.weight)).sum = tf - t0)
    (ht0 : t0 = 0) (htf : tf = 1) :
    (∀ u : ℝ, 1 ≤ 1 + u ^ 2) ∧
    (∀ (states controls : Nat → ℝ) (time : ℝ),
      integrand Real.sqrt states controls parameters time xad iphase workspace
        = Real.sqrt (1 + controls 0 ^ 2) ∧
      integrand_cost Real.sqrt states controls parameters time xad iphase workspace
        = states 0 * Real.sqrt (1 + controls 0 ^ 2)) ∧
    (∀ (s1 s2 : ℝ → ℝ), (∀ a, 1 ≤ a → s1 a = s2 a) →
      ∀ (states controls : Nat → ℝ) (time : ℝ),
        integrand s1 states controls parameters time xad iphase workspace
          = integrand s2 states controls parameters time xad iphase workspace ∧
        integrand_cost s1 states controls parameters time xad iphase workspace
          = integrand_cost s2 states controls parameters time xad iphase workspace) ∧
    (∀ (states controls : Nat → ℝ) (time : ℝ),
      1 ≤ integrand Real.sqrt states controls parameters time xad iphase workspace) ∧
    1 ≤ events Real.sqrt (integrate grid) e initial_states final_states parameters t0 tf xad
        iphase workspace 2 ∧
    (∀ x u : ℝ → Nat → ℝ,
      IntervalIntegrable
        (fun t => integrand Real.sqrt (x t) (u t) parameters t xad iphase workspace)
        MeasureTheory.volume 0 1 →
      1 ≤ ∫ t in (0 : ℝ)..1,
        integrand Real.sqrt (x t) (u t) parameters t xad iphase workspace) ∧
    ∃ c ph, execAll Config.init (setup lib) = .ok c ∧ c.problem.phases = [ph] ∧
      ph.bounds.lower.StartTime = some 0 ∧ ph.bounds.upper.StartTime = some 0 ∧
      ph.bounds.lower.EndTime = some 1 ∧ ph.bounds.upper.EndTime = some 1 ∧
      ph.bounds.lower.events.get? 2 = some (some 4) ∧
      ph.bounds.upper.events.get? 2 = some (some 4) ∧
      (1 : ℚ) ≤ 4 := by
  refine ⟨one_le_sqrt_arg, fun _ _ _ => ⟨rfl, rfl⟩, ?_, fun _ _ _ => one_le_integrand _ _ _ _ _ _ _,
    ?_, fun x u hf => one_le_integral_integrand x u parameters xad iphase workspace hf,
    configured lib, _, execAll_setup lib, rfl, rfl, rfl, rfl, rfl, rfl, rfl, by norm_num⟩
  · intro s1 s2 hs states controls time
    have h := hs (1 + controls 0 ^ 2) (one_le_sqrt_arg (controls 0))
    exact ⟨h, congrArg (fun r => states 0 * r) h⟩
  · have h := sum_weights_le_integrate grid xad iphase workspace hw
    rw [hsum, ht0, htf] at h
    have hQ : events Real.sqrt (integrate grid) e initial_states final_states parameters t0 tf
        xad iphase workspace 2 = integrate grid (integrand Real.sqrt) xad iphase workspace := by
      simp [events, Function.update]
    rw [hQ]
    linarith

/-- Witness for C8: a two-node grid on `[0, 1]` with weights `1/2` and `1/2`. -/
theorem sqrt_argument_and_integral_lower_bound_witness :
    (1 : ℝ) ≤ events Real.sqrt
      (integrate (fun (_ : Nat → ℝ) (_ : Int) (_ : Unit) =>
        (⟨[⟨fun _ => 1, fun _ => 2, 0, 1 / 2⟩, ⟨fun _ => 3, fun _ => 2, 1, 1 / 2⟩],
          fun _ => 0⟩ : Grid ℝ)))
      (fun _ => 0) (fun _ => 1) (fun _ => 3) (fun _ => 0) 0 1 (fun _ => 0) 1 () 2 :=
  (sqrt_argument_and_integral_lower_bound
    (⟨fun _ _ => (), fun _ _ _ => (), fun _ _ => ()⟩ : MatrixLib Unit)
    (fun (_ : Nat → ℝ) (_ : Int) (_ : Unit) =>
      (⟨[⟨fun _ => 1, fun _ => 2, 0, 1 / 2⟩, ⟨fun _ => 3, fun _ => 2, 1, 1 / 2⟩],
        fun _ => 0⟩ : Grid ℝ))
    (fun _ => 0) (fun _ => 1) (fun _ => 3) (fun _ => 0) 0 1 (fun _ => 0) 1 ()
    (by
      intro n hn
      simp only [List.mem_cons, List.mem_singleton, List.not_mem_nil, or_false] at hn
      rcases hn with rfl | rfl <;> norm_num)
    (by norm_num) rfl rfl).2.2.2.2.1

theorem Dbl.ofExact_zero (R : Rounding) : Dbl.ofExact R 0 = 0 := by
  have hm : (0 : ℚ) < R.maxFinite := lt_of_lt_of_le one_pos R.one_le_maxFinite
  unfold Dbl.ofExact
  simp only [R.rnd_zero]
  rw [if_neg (not_lt.mpr hm.le), if_neg (not_lt.mpr (by linarith))]
  rfl

theorem Dbl.ofExact_pos (R : Rounding) (q : ℚ) (h : 0 < R.rnd q) :
    (Dbl.ofExact R q).sign = some 1 ∧ Dbl.ofExact R q ≠ 0 := by
  have hm : (0 : ℚ) < R.maxFinite := lt_of_lt_of_le one_pos R.one_le_maxFinite
  unfold Dbl.ofExact
  split_ifs with h1 h2
  · exact ⟨rfl, fun e => by cases e⟩
  · exact absurd h2 (not_lt.mpr (by linarith))
  · refine ⟨?_, fun e => ?_⟩
    · show some (SignType.sign (R.rnd q)) = some 1
      rw [sign_pos h]
    · have e2 : R.rnd q = 0 := by
        injection e
      exact absurd e2 (ne_of_gt h)

theorem Dbl.ofExact_neg (R : Rounding) (q : ℚ) (h : R.rnd q < 0) :
    (Dbl.ofExact R q).sign = some (-1) ∧ Dbl.ofExact R q ≠ 0 := by
  have hm : (0 : ℚ) < R.maxFinite := lt_of_lt_of_le one_pos R.one_le_maxFinite
  unfold Dbl.ofExact
  split_ifs with h1 h2
  · exact absurd h1 (not_lt.mpr (by linarith))
  · exact ⟨rfl, fun e => by cases e⟩
  · refine ⟨?_, fun e => ?_⟩
    · show some (SignType.sign (R.rnd q)) = some (-1)
      rw [sign_neg h]
    · have e2 : R.rnd q = 0 := by
        injection e
      exact absurd e2 (ne_of_lt h)

theorem one_le_of_integrand_finite (R : Rounding) {W : Type}
    (states controls parameters : Nat → Dbl R) (time : Dbl R) (xad : Nat → Dbl R)
    (iphase : Int) (workspace : W) (g : ℚ) (hg : R.rnd g = g)
    (hG : integrand Dbl.sqrt states controls parameters time xad iphase workspace
      = Dbl.fin g hg) : 1 ≤ g := by
  change Dbl.sqrt (Dbl.add (Dbl.fin 1 R.rnd_one) (Dbl.mul (controls 0) (controls 0)))
    = Dbl.fin g hg at hG
  cases hc : controls 0 with
  | fin q hq =>
    rw [hc] at hG
    have hp : 0 ≤ R.rnd (q * q) := by
      have h := R.rnd_mono 0 (q * q) (mul_self_nonneg q)
      rwa [R.rnd_zero] at h
    have hs : 1 ≤ R.rnd (1 + R.rnd (q * q)) := by
      have h := R.rnd_mono 1 (1 + R.rnd (q * q)) (by linarith)
      rwa [R.rnd_one] at h
    simp only [Dbl.mul, Dbl.ofExact] at hG
    split_ifs at hG with h1 h2
    · cases hG
    · cases hG
    · simp only [Dbl.add, Dbl.ofExact] at hG
      split_ifs at hG with h3 h4
      · cases hG
      · cases hG
      · have h5 : ¬ R.rnd (1 + R.rnd (q * q)) < 0 := not_lt.mpr (by linarith)
        simp only [Dbl.sqrt, if_neg h5] at hG
        have e : R.fsqrt (R.rnd (1 + R.rnd (q * q))) = g := by
          injection hG
        rw [← e]
        exact R.one_le_fsqrt _ hs
  | pinf =>
    rw [hc] at hG
    cases hG
  | ninf =>
    rw [hc] at hG
    cases hG
  | nan =>
    rw [hc] at hG
    cases hG
theorem Dbl.mul_fin_sign (R : Rounding) (x : Dbl R) (g : ℚ) (hg : R.rnd g = g) (h1 : 1 ≤ g) :
    (Dbl.mul x (Dbl.fin g hg)).sign = x.sign ∧ (Dbl.mul x (Dbl.fin g hg) = 0 ↔ x = 0) := by
  have hgpos : 0 < g := lt_of_lt_of_le one_pos h1
  cases x with
  | fin a ha =>
    show (Dbl.ofExact R (a * g)).sign = some (SignType.sign a) ∧
      (Dbl.ofExact R (a * g) = 0 ↔ Dbl.fin a ha = 0)
    rcases lt_trichotomy a 0 with hneg | hzero | hpos
    · have hr : R.rnd (a * g) < 0 := by
        have h := R.rnd_mono (a * g) a (by nlinarith)
        rw [ha] at h
        exact lt_of_le_of_lt h hneg
      have hx : Dbl.fin a ha ≠ (0 : Dbl R) := fun e => by
        have e2 : a = 0 := by
          injection e
        exact absurd e2 (ne_of_lt hneg)
      rw [sign_neg hneg]
      exact ⟨(Dbl.ofExact_neg R _ hr).1,
        fun e => absurd e (Dbl.ofExact_neg R _ hr).2, fun e => absurd e hx⟩
    · subst hzero
      rw [zero_mul, Dbl.ofExact_zero, sign_zero]
      exact ⟨rfl, fun _ => rfl, fun _ => rfl⟩
    · have hr : 0 < R.rnd (a * g) := by
        have h := R.rnd_mono a (a * g) (by nlinarith)
        rw [ha] at h
        exact lt_of_lt_of_le hpos h
      have hx : Dbl.fin a ha ≠ (0 : Dbl R) := fun e => by
        have e2 : a = 0 := by
          injection e
        exact absurd e2 (ne_of_gt hpos)
      rw [sign_pos hpos]
      exact ⟨(Dbl.ofExact_pos R _ hr).1,
        fun e => absurd e (Dbl.ofExact_pos R _ hr).2, fun e => absurd e hx⟩
  | pinf =>
    have hm : Dbl.mul (Dbl.pinf : Dbl R) (Dbl.fin g hg) = Dbl.pinf := by
      simp [Dbl.mul, Dbl.mulInf, hgpos]
    rw [hm]
    exact ⟨rfl, Iff.intro (fun e => by cases e) (fun e => by cases e)⟩
  | ninf =>
    have hm : Dbl.mul (Dbl.ninf : Dbl R) (Dbl.fin g hg) = Dbl.ninf := by
      simp [Dbl.mul, Dbl.mulInf, hgpos]
    rw [hm]
    exact ⟨rfl, Iff.intro (fun e => by cases e) (fun e => by cases e)⟩
  | nan =>
    exact ⟨rfl, Iff.intro (fun e => by cases e) (fun e => by cases e)⟩

theorem integrand_cost_nan_of_overflow (R : Rounding) {W : Type}
    (states controls parameters : Nat → Dbl R) (time : Dbl R) (xad : Nat → Dbl R)
    (iphase : Int) (workspace : W) (u : ℚ) (hu : R.rnd u = u)
    (hc : controls 0 = Dbl.fin u hu) (hs : states 0 = 0)
    (hov : R.maxFinite < R.rnd (u * u)) :
    integrand Dbl.sqrt states controls parameters time xad iphase workspace = Dbl.pinf ∧
    integrand_cost Dbl.sqrt states controls parameters time xad iphase workspace = Dbl.nan := by
  have hG : integrand Dbl.sqrt states controls parameters time xad iphase workspace
      = Dbl.pinf := by
    show Dbl.sqrt (Dbl.add (Dbl.fin 1 R.rnd_one) (Dbl.mul (controls 0) (controls 0))) = Dbl.pinf
    rw [hc]
    simp only [Dbl.mul, Dbl.ofExact, if_pos hov, Dbl.add, Dbl.sqrt]
  refine ⟨hG, ?_⟩
  show Dbl.mul (states 0)
    (integrand Dbl.sqrt states controls parameters time xad iphase workspace) = Dbl.nan
  rw [hG, hs]
  show Dbl.mul (Dbl.fin 0 R.rnd_zero) Dbl.pinf = Dbl.nan
  simp [Dbl.mul, Dbl.mulInf]

end Chain
